import Mathlib

/-!
Shallow embedding of `src/html-canvas-printer.ts` (class `HTMLCanvasEpsonPrinter`),
the sequential document-flow engine of the repository.  Canvas drawing side
effects are modelled as a trace of draw records; the mutable printer object is
modelled as an explicit state threaded through the operations.  JavaScript
numbers are modelled as `Int` (all quantities in this program are integer
valued for integer inputs), and the host text-measurement primitive
(`ctx.measureText`) is a function parameter stored in the state.
-/

namespace CanvasPrinter

/-- Text alignment, from the `TextAlignment` type of `interfaces/epson-printer`
(the string union `left | center | right`, as used by the source switches). -/
inductive TextAlignment where
  | left
  | center
  | right
deriving DecidableEq, Repr

/-- Text style, from the `TextStyle` type of `interfaces/epson-printer`: the
optional fields `bold?`, `underline?`, `fontFamily?`; a missing field is
`none`. -/
structure TextStyle where
  bold : Option Bool := none
  underline : Option Bool := none
  fontFamily : Option String := none
deriving DecidableEq, Repr

/-- JavaScript object spread `\x7b ...a, ...b \x7d` for two `TextStyle`
values: a field present in `b` wins, otherwise the field of `a` persists. -/
def mergeStyle (a b : TextStyle) : TextStyle :=
  { bold := b.bold <|> a.bold
    underline := b.underline <|> a.underline
    fontFamily := b.fontFamily <|> a.fontFamily }

/-- JavaScript `v || d` for an optional number: `undefined` and `0` are falsy
and fall back to the default. -/
def orNum (v : Option Int) (d : Int) : Int :=
  match v with
  | none => d
  | some x => if x = 0 then d else x

/-- JavaScript `v || d` for an optional string: `undefined` and the empty
string are falsy and fall back to the default. -/
def orStr (v : Option String) (d : String) : String :=
  match v with
  | none => d
  | some x => if x = "" then d else x

/-- A resolved canvas font, the information carried by the `ctx.font` string
the source assembles before drawing or measuring text. -/
structure Font where
  bold : Bool
  size : Int
  family : String
deriving DecidableEq, Repr

/-- Element id.  The source allocates string ids of the form `<kind>_<n>`
(for example `text_3`); since no kind name contains an underscore this string
is in bijection with the pair of its kind and its numeric suffix, which is how
it is modelled here. -/
structure ElemId where
  kind : String
  num : Nat
deriving DecidableEq, Repr

/-- The per-element payloads (`TextElementData`, `BarcodeElementData`, ...),
tagged by the `type` field of `CanvasElement`.  The tag of this inductive is
the `type` string of the source record.  For images only the dimensions of the
`ImageData` buffer matter to the engine, so the pixel buffer is elided to its
width and height. -/
inductive ElementData where
  | text (text : String) (style : Option TextStyle) (alignment : Option TextAlignment)
  | barcode (data : String) (btype : Int) (height : Option Int)
  | qrcode (data : String) (size : Option Int)
  | image (imageW imageH : Int) (optW optH : Option Int) (alignment : Option TextAlignment)
  | feedline (lines : Int)
  | cut
  | textalign (alignment : TextAlignment)
  | textsize (width : Int) (height : Int)
  | textstyle (style : TextStyle)
  | linespace (space : Int)
deriving DecidableEq, Repr

/-- The `type` string of a payload, used as the kind part of allocated ids. -/
def ElementData.kind : ElementData → String
  | .text .. => "text"
  | .barcode .. => "barcode"
  | .qrcode .. => "qrcode"
  | .image .. => "image"
  | .feedline _ => "feedline"
  | .cut => "cut"
  | .textalign _ => "textalign"
  | .textsize .. => "textsize"
  | .textstyle _ => "textstyle"
  | .linespace _ => "linespace"

/-- The `CanvasElement` record of the source (the `type` field is the tag of
`data`). -/
structure CanvasElement where
  id : ElemId
  x : Int
  y : Int
  width : Int
  height : Int
  data : ElementData
  startY : Int
  endY : Int
deriving DecidableEq, Repr

/-- One drawing side effect on the canvas.  `textLine` records a
`ctx.fillText` of a content line together with the resolved font and alignment
in effect for it; `underlineSeg` the stroked underline segment; `label` a
12px-monospace auxiliary text (placeholder captions and the grayed-out
styling-element markers); `box` a `strokeRect`; `dash` a dashed line; `picture`
a blit of the image buffer. -/
inductive DrawOp where
  | textLine (line : String) (x y : Int) (font : Font) (align : TextAlignment)
  | underlineSeg (startX endX y : Int)
  | label (text : String) (x y : Int)
  | box (x y w h : Int)
  | dash (x1 y1 x2 y2 : Int)
  | picture (x y w h : Int)
deriving DecidableEq, Repr

/-- The mutable fields of `HTMLCanvasEpsonPrinter`, plus the constructor-fixed
`paperWidth` (`canvas.width`), the canvas height managed by
`ensureCanvasHeight`, the injected text measurement function, and the trace of
draw calls since the canvas was last cleared. -/
structure PrinterState where
  paperWidth : Int
  canvasHeight : Int
  measure : Font → String → Int
  currentY : Int
  currentTextAlign : TextAlignment
  currentTextStyle : TextStyle
  currentTextSizeW : Int
  currentTextSizeH : Int
  lineSpacing : Int
  elements : List CanvasElement
  elementIdCounter : Nat
  drawn : List DrawOp

/-- The printer right after construction: defaults as set by the field
initializers and the constructor of the source class. -/
def initState (paperWidth canvasHeight : Int) (measure : Font → String → Int) :
    PrinterState :=
  { paperWidth := paperWidth
    canvasHeight := canvasHeight
    measure := measure
    currentY := 0
    currentTextAlign := .left
    currentTextStyle := {}
    currentTextSizeW := 1
    currentTextSizeH := 1
    lineSpacing := 30
    elements := []
    elementIdCounter := 0
    drawn := [] }

/-- `ensureCanvasHeight`: grow (never shrink) the canvas to
`max (2 * height) (required + 500)` when the required height exceeds the
current one. -/
def ensureCanvasHeight (s : PrinterState) (required : Int) : PrinterState :=
  if required > s.canvasHeight then
    { s with canvasHeight := max (s.canvasHeight * 2) (required + 500) }
  else s

/-- `clear()`: blank the canvas and reset every mutable field to its default;
the canvas height is left as is. -/
def clear (s : PrinterState) : PrinterState :=
  { s with
    currentY := 0
    currentTextAlign := .left
    currentTextStyle := {}
    currentTextSizeW := 1
    currentTextSizeH := 1
    lineSpacing := 30
    elements := []
    elementIdCounter := 0
    drawn := [] }

/-- The greedy word-wrap loop shared by `addText` and the text redraw paths:
`cur` is the line under construction, the second argument the words not yet
placed, `acc` the closed lines.  A word joins the current line when the
measured width of `cur ++ " " ++ word` is strictly below the limit, otherwise
the current line is closed and the word starts a new one. -/
def wrapLoop (measure : String → Int) (limit : Int) :
    String → List String → List String → List String
  | cur, [], acc => acc ++ [cur]
  | cur, w :: rest, acc =>
    if measure (cur ++ " " ++ w) < limit then
      wrapLoop measure limit (cur ++ " " ++ w) rest acc
    else
      wrapLoop measure limit w rest (acc ++ [cur])

/-- Splitting loop of JavaScript `text.split(" ")`: walk the characters,
closing the current word at every space. -/
def splitAux : List Char → String → List String
  | [], cur => [cur]
  | c :: rest, cur =>
    if c = ' ' then cur :: splitAux rest "" else splitAux rest (cur.push c)

/-- JavaScript `text.split(" ")`: the maximal chunks between single spaces,
in order; yields at least one word (the empty string for empty input, and
empty words between consecutive spaces). -/
def splitOnSpace (text : String) : List String :=
  splitAux text.toList ""

/-- Word wrap of a whole text: split on single spaces and run the greedy loop
seeded with the first word. -/
def wrapText (measure : String → Int) (limit : Int) (text : String) :
    List String :=
  match splitOnSpace text with
  | [] => []
  | w :: ws => wrapLoop measure limit w ws []

/-- Join lines back with single spaces (what concatenating the produced
wrapped lines separated by one space yields). -/
def joinWords : List String → String
  | [] => ""
  | [w] => w
  | w :: ws => w ++ " " ++ joinWords ws

end CanvasPrinter

namespace CanvasPrinter

/-- The display name of an alignment (the string interpolated into the
grayed-out styling labels). -/
def TextAlignment.alignName : TextAlignment → String
  | .left => "left"
  | .center => "center"
  | .right => "right"

/-- The draw calls `addText` (and the text redraw paths) issue for the wrapped
lines: one `fillText` per line at the alignment-dependent x position, plus an
underline segment spanning the measured width of the line when the resolved
style has underline set.  `y` is the vertical position of the next line and
grows by `lineHeight` per line. -/
def textLineDraws (m : String → Int) (font : Font) (align : TextAlignment)
    (pw : Int) (ul : Bool) (lineHeight : Int) :
    Int → List String → List DrawOp
  | _, [] => []
  | y, line :: rest =>
    let x : Int :=
      match align with
      | .center => pw / 2
      | .right => pw - 10
      | .left => 10
    let ulOps :=
      if ul then
        let wdt := m line
        let se : Int × Int :=
          match align with
          | .center => (x - wdt / 2, x + wdt / 2)
          | .right => (x - wdt, x)
          | .left => (x, x + wdt)
        [DrawOp.underlineSeg se.1 se.2 (y + font.size + 2)]
      else []
    DrawOp.textLine line x y font align :: ulOps ++
      textLineDraws m font align pw ul lineHeight (y + lineHeight) rest

/-- `addText(text, options?)`: resolve the style by spreading the optional
override over the carried style, word-wrap at `paperWidth - 20`, draw every
line, append one tracked text element spanning the produced lines, and advance
the cursor to the end of the block.  The stored payload snapshots the resolved
style and the alignment in effect. -/
def addText (s : PrinterState) (text : String) (options : Option TextStyle) :
    PrinterState :=
  let style :=
    match options with
    | none => s.currentTextStyle
    | some o => mergeStyle s.currentTextStyle o
  let fontSize := 16 * s.currentTextSizeH
  let font : Font :=
    ⟨style.bold.getD false, fontSize, orStr style.fontFamily "monospace"⟩
  let lines := wrapText (s.measure font) (s.paperWidth - 20) text
  let lineHeight := fontSize + s.lineSpacing
  let totalHeight := s.currentY + (lines.length : Int) * lineHeight
  let s1 := ensureCanvasHeight s totalHeight
  let elementId : ElemId := ⟨"text", s.elementIdCounter + 1⟩
  let startY := s.currentY
  let draws := textLineDraws (s.measure font) font s.currentTextAlign
    s.paperWidth (style.underline.getD false) lineHeight s.currentY lines
  { s1 with
    elementIdCounter := s.elementIdCounter + 1
    drawn := s1.drawn ++ draws
    elements := s1.elements ++
      [{ id := elementId, x := 10, y := startY, width := s.paperWidth - 20,
         height := totalHeight - startY,
         data := .text text (some style) (some s.currentTextAlign),
         startY := startY, endY := totalHeight }]
    currentY := totalHeight }

/-- `addTextAlign(alignment)`: set the carried alignment, track a 20px-high
styling element, draw its grayed-out marker, and advance the cursor by 20. -/
def addTextAlign (s : PrinterState) (a : TextAlignment) : PrinterState :=
  let s1 :=
    { s with
      currentTextAlign := a
      elementIdCounter := s.elementIdCounter + 1
      elements := s.elements ++
        [{ id := ⟨"textalign", s.elementIdCounter + 1⟩, x := 10,
           y := s.currentY, width := s.paperWidth - 20, height := 20,
           data := .textalign a, startY := s.currentY,
           endY := s.currentY + 20 }]
      drawn := s.drawn ++
        [.label ("[Text Alignment: " ++ a.alignName ++ "]") 10 s.currentY]
      currentY := s.currentY + 20 }
  ensureCanvasHeight s1 s1.currentY

/-- `addTextSize(width, height)`: clamp both factors to the interval 1..8,
set the carried size, track the styling element (with the clamped values) and
draw its marker; advance by 20. -/
def addTextSize (s : PrinterState) (w h : Int) : PrinterState :=
  let cw := max 1 (min 8 w)
  let ch := max 1 (min 8 h)
  let s1 :=
    { s with
      currentTextSizeW := cw
      currentTextSizeH := ch
      elementIdCounter := s.elementIdCounter + 1
      elements := s.elements ++
        [{ id := ⟨"textsize", s.elementIdCounter + 1⟩, x := 10,
           y := s.currentY, width := s.paperWidth - 20, height := 20,
           data := .textsize cw ch, startY := s.currentY,
           endY := s.currentY + 20 }]
      drawn := s.drawn ++
        [.label ("[Text Size: " ++ toString cw ++ "x" ++ toString ch ++ "]")
          10 s.currentY]
      currentY := s.currentY + 20 }
  ensureCanvasHeight s1 s1.currentY

/-- `addTextStyle(style)`: merge the patch into the carried style (unset
fields persist), track the styling element (storing the merged style) and draw
its marker; advance by 20. -/
def addTextStyle (s : PrinterState) (st : TextStyle) : PrinterState :=
  let merged := mergeStyle s.currentTextStyle st
  let s1 :=
    { s with
      currentTextStyle := merged
      elementIdCounter := s.elementIdCounter + 1
      elements := s.elements ++
        [{ id := ⟨"textstyle", s.elementIdCounter + 1⟩, x := 10,
           y := s.currentY, width := s.paperWidth - 20, height := 20,
           data := .textstyle merged, startY := s.currentY,
           endY := s.currentY + 20 }]
      drawn := s.drawn ++
        [.label ("[Text Style: " ++
            (if merged.bold.getD false then "bold " else "") ++
            (if merged.underline.getD false then "underline " else "") ++
            orStr merged.fontFamily "default" ++ "]") 10 s.currentY]
      currentY := s.currentY + 20 }
  ensureCanvasHeight s1 s1.currentY

/-- `addFeedLine(lines)`: advance the cursor by
`lines * (baseFontSize * verticalScale + lineSpacing)` and track a feed
element of that height; nothing is drawn. -/
def addFeedLine (s : PrinterState) (lines : Int) : PrinterState :=
  let lineHeight := 16 * s.currentTextSizeH
  let startY := s.currentY
  let newY := s.currentY + lines * (lineHeight + s.lineSpacing)
  let s1 := ensureCanvasHeight { s with currentY := newY } newY
  { s1 with
    elementIdCounter := s.elementIdCounter + 1
    elements := s1.elements ++
      [{ id := ⟨"feedline", s.elementIdCounter + 1⟩, x := 0, y := startY,
         width := s.paperWidth,
         height := lines * (lineHeight + s.lineSpacing),
         data := .feedline lines, startY := startY, endY := newY }] }

/-- `addLineSpace(space)`: set the carried line spacing, track the styling
element and draw its marker; advance by 20. -/
def addLineSpace (s : PrinterState) (space : Int) : PrinterState :=
  let s1 :=
    { s with
      lineSpacing := space
      elementIdCounter := s.elementIdCounter + 1
      elements := s.elements ++
        [{ id := ⟨"linespace", s.elementIdCounter + 1⟩, x := 10,
           y := s.currentY, width := s.paperWidth - 20, height := 20,
           data := .linespace space, startY := s.currentY,
           endY := s.currentY + 20 }]
      drawn := s.drawn ++
        [.label ("[Line Spacing: " ++ toString space ++ "px]") 10 s.currentY]
      currentY := s.currentY + 20 }
  ensureCanvasHeight s1 s1.currentY

/-- `addBarcode(data, type, options?)`: draw a placeholder box of the given
(or default 100) height with a caption, track the element, and advance by the
height plus 20px padding. -/
def addBarcode (s : PrinterState) (d : String) (ty : Int)
    (hOpt : Option Int) : PrinterState :=
  let bh := orNum hOpt 100
  let startY := s.currentY
  let s1 := ensureCanvasHeight s (s.currentY + bh + 20)
  let endY := s.currentY + bh + 20
  { s1 with
    elementIdCounter := s.elementIdCounter + 1
    drawn := s1.drawn ++
      [.box 10 s.currentY (s.paperWidth - 20) bh,
       .label ("[" ++ toString ty ++ " Barcode: " ++ d ++ "]")
         (s.paperWidth / 2) (s.currentY + bh / 2)]
    elements := s1.elements ++
      [{ id := ⟨"barcode", s.elementIdCounter + 1⟩, x := 10, y := startY,
         width := s.paperWidth - 20, height := bh + 20,
         data := .barcode d ty hOpt, startY := startY, endY := endY }]
    currentY := endY }

/-- `addQRCode(data, options?)`: draw a centered placeholder square of the
given (or default 200) size with a caption, track the element, and advance by
the size plus 20px padding. -/
def addQRCode (s : PrinterState) (d : String) (szOpt : Option Int) :
    PrinterState :=
  let size := orNum szOpt 200
  let startY := s.currentY
  let s1 := ensureCanvasHeight s (s.currentY + size + 20)
  let endY := s.currentY + size + 20
  { s1 with
    elementIdCounter := s.elementIdCounter + 1
    drawn := s1.drawn ++
      [.box ((s.paperWidth - size) / 2) s.currentY size size,
       .label "[QR Code]" (s.paperWidth / 2) (s.currentY + size / 2)]
    elements := s1.elements ++
      [{ id := ⟨"qrcode", s.elementIdCounter + 1⟩,
         x := (s.paperWidth - size) / 2, y := startY, width := size,
         height := size + 20, data := .qrcode d szOpt,
         startY := startY, endY := endY }]
    currentY := endY }

/-- `addImage(imageData, options?)`: scale by the explicit options (default
the natural size, aspect preserved when only the width is overridden), align
per the options, blit the buffer, track the element, and advance by the drawn
height plus 20px padding. -/
def addImage (s : PrinterState) (imageW imageH : Int)
    (optW optH : Option Int) (alOpt : Option TextAlignment) : PrinterState :=
  let width := orNum optW imageW
  let height := orNum optH (imageH * (width / imageW))
  let startY := s.currentY
  let s1 := ensureCanvasHeight s (s.currentY + height + 20)
  let x : Int :=
    match alOpt.getD .left with
    | .center => (s.paperWidth - width) / 2
    | .right => s.paperWidth - width
    | .left => 0
  let endY := s.currentY + height + 20
  { s1 with
    elementIdCounter := s.elementIdCounter + 1
    drawn := s1.drawn ++ [.picture x s.currentY width height]
    elements := s1.elements ++
      [{ id := ⟨"image", s.elementIdCounter + 1⟩, x := x, y := startY,
         width := width, height := height + 20,
         data := .image imageW imageH optW optH alOpt,
         startY := startY, endY := endY }]
    currentY := endY }

/-- `cutPaper()`: draw a dashed rule at the cursor, advance by a fixed 20px,
and track the element. -/
def cutPaper (s : PrinterState) : PrinterState :=
  let startY := s.currentY
  let s1 := ensureCanvasHeight
    { s with
      drawn := s.drawn ++ [.dash 0 s.currentY s.paperWidth s.currentY]
      currentY := s.currentY + 20 }
    (s.currentY + 20)
  { s1 with
    elementIdCounter := s.elementIdCounter + 1
    elements := s1.elements ++
      [{ id := ⟨"cut", s.elementIdCounter + 1⟩, x := 0, y := startY,
         width := s.paperWidth, height := 20, data := .cut,
         startY := startY, endY := startY + 20 }] }

/-- One step of the command replay `redrawCanvas` performs: re-invoke the
append operation of the element kind on the stored payload.  Text elements are
re-appended with their stored resolved style passed as the override; the
stored alignment is not passed (the alignment is re-derived from the replayed
context). -/
def replayStep (s : PrinterState) (el : CanvasElement) : PrinterState :=
  match el.data with
  | .text t st _ => addText s t st
  | .barcode d ty hOpt => addBarcode s d ty hOpt
  | .qrcode d szOpt => addQRCode s d szOpt
  | .image w h ow oh al => addImage s w h ow oh al
  | .feedline n => addFeedLine s n
  | .cut => cutPaper s
  | .textalign a => addTextAlign s a
  | .textsize w h => addTextSize s w h
  | .textstyle st => addTextStyle s st
  | .linespace sp => addLineSpace s sp

/-- `redrawCanvas()` (the full command replay used after a removal): blank the
canvas, reset the formatting state, the cursor, the element list and the id
counter, then re-append every remaining element in order from its stored
payload. -/
def redrawCanvas (s : PrinterState) : PrinterState :=
  let s0 :=
    { s with
      currentY := 0
      currentTextAlign := .left
      currentTextStyle := {}
      currentTextSizeW := 1
      currentTextSizeH := 1
      lineSpacing := 30
      elements := []
      elementIdCounter := 0
      drawn := [] }
  s.elements.foldl replayStep s0

/-- `removeElement(elementId)`: `false` and no mutation when the id is not
found, otherwise splice the element out and run the full command replay. -/
def removeElement (s : PrinterState) (elementId : ElemId) :
    Bool × PrinterState :=
  match s.elements.findIdx? (fun el => el.id == elementId) with
  | none => (false, s)
  | some i => (true, redrawCanvas { s with elements := s.elements.eraseIdx i })

end CanvasPrinter

namespace CanvasPrinter

/-- Update the position fields of an element in place, keeping its id and
stored payload (the common tail of every `redraw*ElementAtPosition`). -/
def placeEl (el : CanvasElement) (x y w h sY eY : Int) : CanvasElement :=
  { el with x := x, y := y, width := w, height := h, startY := sY, endY := eY }

/-- One step of the position-only replay (`redrawElementAtCurrentPosition`):
recompute the position fields of the element at the current cursor and redraw
it, keeping its id and stored payload.  Styling elements apply their value to
the running formatting state; a text element is redrawn with the RUNNING
style, size and alignment (not its stored snapshot); a feed element advances
the cursor by `lines * lineSpacing` here.  Returns the updated element and the
updated state. -/
def redrawStep (s : PrinterState) (el : CanvasElement) :
    CanvasElement × PrinterState :=
  match el.data with
  | .text t _ _ =>
    let fontSize := 16 * s.currentTextSizeH
    let font : Font :=
      ⟨s.currentTextStyle.bold.getD false, fontSize,
        orStr s.currentTextStyle.fontFamily "monospace"⟩
    let lines := wrapText (s.measure font) (s.paperWidth - 20) t
    let lineHeight := fontSize + s.lineSpacing
    let startY := s.currentY
    let totalHeight := s.currentY + (lines.length : Int) * lineHeight
    let s1 := ensureCanvasHeight s totalHeight
    let draws := textLineDraws (s.measure font) font s.currentTextAlign
      s.paperWidth (s.currentTextStyle.underline.getD false) lineHeight
      s.currentY lines
    (placeEl el (10) (startY) (s.paperWidth - 20) (totalHeight - startY) (startY) (totalHeight),
     { s1 with currentY := totalHeight, drawn := s1.drawn ++ draws })
  | .barcode d _ hOpt =>
    let bh := orNum hOpt 100
    let startY := s.currentY
    let s1 := ensureCanvasHeight s (s.currentY + bh + 20)
    (placeEl el (10) (startY) (s.paperWidth - 20) (bh + 20) (startY) (s.currentY + bh + 20),
     { s1 with
       currentY := s.currentY + bh + 20
       drawn := s1.drawn ++
         [.box 10 s.currentY (s.paperWidth - 20) bh,
          .label ("Barcode: " ++ d) (s.paperWidth / 2)
            (s.currentY + bh + 5)] })
  | .qrcode d szOpt =>
    let size := orNum szOpt 200
    let startY := s.currentY
    let s1 := ensureCanvasHeight s (s.currentY + size + 20)
    (placeEl el (10) (startY) (size) (size + 20) (startY) (s.currentY + size + 20),
     { s1 with
       currentY := s.currentY + size + 20
       drawn := s1.drawn ++
         [.box 10 s.currentY size size,
          .label ("QR Code: " ++ d) (s.paperWidth / 2)
            (s.currentY + size + 5)] })
  | .image imageW imageH _ _ _ =>
    let startY := s.currentY
    let s1 := ensureCanvasHeight s (s.currentY + imageH + 20)
    (placeEl el (10) (startY) (imageW) (imageH + 20) (startY) (s.currentY + imageH + 20),
     { s1 with
       currentY := s.currentY + imageH + 20
       drawn := s1.drawn ++
         [.picture 10 s.currentY imageW imageH,
          .label "Image" (s.paperWidth / 2) (s.currentY + imageH + 5)] })
  | .feedline lines =>
    let startY := s.currentY
    let feedHeight := lines * s.lineSpacing
    let s1 := ensureCanvasHeight s (s.currentY + feedHeight)
    (placeEl el (0) (startY) (s.paperWidth) (feedHeight) (startY) (s.currentY + feedHeight),
     { s1 with currentY := s.currentY + feedHeight })
  | .cut =>
    let startY := s.currentY
    let s1 := ensureCanvasHeight s (s.currentY + 20)
    (placeEl el (10) (startY) (s.paperWidth - 20) (20) (startY) (s.currentY + 20),
     { s1 with
       currentY := s.currentY + 20
       drawn := s1.drawn ++
         [.dash 10 (s.currentY + 10) (s.paperWidth - 10)
            (s.currentY + 10)] })
  | .textalign a =>
    let startY := s.currentY
    let s1 := ensureCanvasHeight { s with currentTextAlign := a }
      (s.currentY + 20)
    (placeEl el (0) (startY) (s.paperWidth) (20) (startY) (s.currentY + 20),
     { s1 with
       currentY := s.currentY + 20
       drawn := s1.drawn ++
         [.label ("Text Align: " ++ a.alignName) (s.paperWidth / 2)
            (s.currentY + 5)] })
  | .textsize w h =>
    let startY := s.currentY
    let s1 := ensureCanvasHeight
      { s with currentTextSizeW := w, currentTextSizeH := h }
      (s.currentY + 20)
    (placeEl el (0) (startY) (s.paperWidth) (20) (startY) (s.currentY + 20),
     { s1 with
       currentY := s.currentY + 20
       drawn := s1.drawn ++
         [.label ("Text Size: " ++ toString w ++ "x" ++ toString h)
            (s.paperWidth / 2) (s.currentY + 5)] })
  | .textstyle st =>
    let startY := s.currentY
    let s1 := ensureCanvasHeight { s with currentTextStyle := st }
      (s.currentY + 20)
    (placeEl el (0) (startY) (s.paperWidth) (20) (startY) (s.currentY + 20),
     { s1 with
       currentY := s.currentY + 20
       drawn := s1.drawn ++
         [.label (("Text Style: " ++
             (if st.bold.getD false then "Bold" else "") ++ " " ++
             (if st.underline.getD false then "Underline" else "") ++ " " ++
             orStr st.fontFamily "Default").trim)
            (s.paperWidth / 2) (s.currentY + 5)] })
  | .linespace sp =>
    let startY := s.currentY
    let s1 := ensureCanvasHeight { s with lineSpacing := sp }
      (s.currentY + 20)
    (placeEl el (0) (startY) (s.paperWidth) (20) (startY) (s.currentY + 20),
     { s1 with
       currentY := s.currentY + 20
       drawn := s1.drawn ++
         [.label ("Line Space: " ++ toString sp ++ "px")
            (s.paperWidth / 2) (s.currentY + 5)] })

/-- Walk the elements in order through `redrawStep`, threading the state and
collecting the position-updated elements. -/
def redrawAll (s : PrinterState) : List CanvasElement →
    List CanvasElement × PrinterState
  | [] => ([], s)
  | e :: es =>
    let r := redrawStep s e
    let rest := redrawAll r.2 es
    (r.1 :: rest.1, rest.2)

/-- `redrawCanvasFromElements()` (the position-only replay used by `reorder`
and by the bulk load): blank the canvas, reset the formatting state and the
cursor (the element list and the id counter are kept), then walk every element
in order recomputing its position fields in place.  The in-place mutation of
the walked list is modelled by rebuilding the list from the walk. -/
def redrawCanvasFromElements (s : PrinterState) : PrinterState :=
  let s0 :=
    { s with
      currentY := 0
      currentTextAlign := .left
      currentTextStyle := {}
      currentTextSizeW := 1
      currentTextSizeH := 1
      lineSpacing := 30
      elements := []
      drawn := [] }
  let r := redrawAll s0 s.elements
  { r.2 with elements := r.1 }

/-- `reorderElement(elementId, newIndex)`: `false` and no mutation when the id
is not found or the index is outside `0 ≤ newIndex < length`; otherwise splice
the element out of its current position, insert it at `newIndex`, and run the
position-only replay. -/
def reorderElement (s : PrinterState) (elementId : ElemId) (newIndex : Int) :
    Bool × PrinterState :=
  match s.elements.findIdx? (fun el => el.id == elementId) with
  | none => (false, s)
  | some ci =>
    if newIndex < 0 ∨ (s.elements.length : Int) ≤ newIndex then (false, s)
    else
      match s.elements[ci]? with
      | none => (false, s)
      | some el =>
        let moved := (s.elements.eraseIdx ci).insertIdx newIndex.toNat el
        (true, redrawCanvasFromElements { s with elements := moved })

/-- `loadReceiptData(elements)`: replace the element list wholesale, recompute
the id counter as the maximum numeric id suffix (0 when empty), and run the
position-only replay. -/
def loadReceiptData (s : PrinterState) (es : List CanvasElement) :
    PrinterState :=
  let counter := es.foldr (fun e acc => max e.id.num acc) 0
  redrawCanvasFromElements
    { s with elements := es, elementIdCounter := counter }

/-- One invocation of a public engine operation (the boolean results of
`removeElement` and `reorderElement` are dropped here; the claims about them
are stated on the operations directly). -/
inductive Op where
  | opText (t : String) (o : Option TextStyle)
  | opBarcode (d : String) (ty : Int) (h : Option Int)
  | opQRCode (d : String) (sz : Option Int)
  | opImage (w h : Int) (ow oh : Option Int) (al : Option TextAlignment)
  | opFeedLine (n : Int)
  | opCut
  | opTextAlign (a : TextAlignment)
  | opTextSize (w h : Int)
  | opTextStyle (st : TextStyle)
  | opLineSpace (sp : Int)
  | opRemove (id : ElemId)
  | opReorder (id : ElemId) (idx : Int)
  | opLoad (es : List CanvasElement)
  | opClear

/-- Apply one public operation to the printer state. -/
def applyOp (s : PrinterState) : Op → PrinterState
  | .opText t o => addText s t o
  | .opBarcode d ty h => addBarcode s d ty h
  | .opQRCode d sz => addQRCode s d sz
  | .opImage w h ow oh al => addImage s w h ow oh al
  | .opFeedLine n => addFeedLine s n
  | .opCut => cutPaper s
  | .opTextAlign a => addTextAlign s a
  | .opTextSize w h => addTextSize s w h
  | .opTextStyle st => addTextStyle s st
  | .opLineSpace sp => addLineSpace s sp
  | .opRemove id => (removeElement s id).2
  | .opReorder id idx => (reorderElement s id idx).2
  | .opLoad es => loadReceiptData s es
  | .opClear => clear s

/-- Run a sequence of public operations from a freshly constructed printer. -/
def runOps (paperWidth canvasHeight : Int) (measure : Font → String → Int)
    (ops : List Op) : PrinterState :=
  ops.foldl applyOp (initState paperWidth canvasHeight measure)

/-- `opLoad` is the only operation whose input can inject arbitrary ids; the
id-uniqueness claim quantifies over the edit operations only. -/
def Op.isLoad : Op → Prop
  | .opLoad _ => True
  | _ => False

instance : DecidablePred Op.isLoad := by
  intro op
  cases op <;> simp [Op.isLoad] <;> infer_instance

end CanvasPrinter

namespace CanvasPrinter

@[simp] theorem ensure_elements (s : PrinterState) (r : Int) :
    (ensureCanvasHeight s r).elements = s.elements := by
  unfold ensureCanvasHeight; split <;> rfl

@[simp] theorem ensure_currentY (s : PrinterState) (r : Int) :
    (ensureCanvasHeight s r).currentY = s.currentY := by
  unfold ensureCanvasHeight; split <;> rfl

@[simp] theorem ensure_drawn (s : PrinterState) (r : Int) :
    (ensureCanvasHeight s r).drawn = s.drawn := by
  unfold ensureCanvasHeight; split <;> rfl

@[simp] theorem ensure_counter (s : PrinterState) (r : Int) :
    (ensureCanvasHeight s r).elementIdCounter = s.elementIdCounter := by
  unfold ensureCanvasHeight; split <;> rfl

@[simp] theorem ensure_align (s : PrinterState) (r : Int) :
    (ensureCanvasHeight s r).currentTextAlign = s.currentTextAlign := by
  unfold ensureCanvasHeight; split <;> rfl

@[simp] theorem ensure_style (s : PrinterState) (r : Int) :
    (ensureCanvasHeight s r).currentTextStyle = s.currentTextStyle := by
  unfold ensureCanvasHeight; split <;> rfl

@[simp] theorem ensure_sizeW (s : PrinterState) (r : Int) :
    (ensureCanvasHeight s r).currentTextSizeW = s.currentTextSizeW := by
  unfold ensureCanvasHeight; split <;> rfl

@[simp] theorem ensure_sizeH (s : PrinterState) (r : Int) :
    (ensureCanvasHeight s r).currentTextSizeH = s.currentTextSizeH := by
  unfold ensureCanvasHeight; split <;> rfl

@[simp] theorem ensure_spacing (s : PrinterState) (r : Int) :
    (ensureCanvasHeight s r).lineSpacing = s.lineSpacing := by
  unfold ensureCanvasHeight; split <;> rfl

@[simp] theorem ensure_paperWidth (s : PrinterState) (r : Int) :
    (ensureCanvasHeight s r).paperWidth = s.paperWidth := by
  unfold ensureCanvasHeight; split <;> rfl

@[simp] theorem ensure_measure (s : PrinterState) (r : Int) :
    (ensureCanvasHeight s r).measure = s.measure := by
  unfold ensureCanvasHeight; split <;> rfl

/-- The element sequence occupies contiguous vertical spans starting at `y`:
each element starts where its predecessor ended. -/
def contiguousFromB : Int → List CanvasElement → Bool
  | _, [] => true
  | y, e :: es => decide (e.startY = y) && contiguousFromB e.endY es

/-- The end of the last span of the list, `y` for the empty list. -/
def listEnd : Int → List CanvasElement → Int
  | y, [] => y
  | _, e :: es => listEnd e.endY es

theorem contiguousFromB_append (l : List CanvasElement) (e : CanvasElement)
    (y : Int) :
    contiguousFromB y (l ++ [e]) =
      (contiguousFromB y l && decide (e.startY = listEnd y l)) := by
  induction l generalizing y with
  | nil => simp [contiguousFromB, listEnd]
  | cons a as ih => simp [contiguousFromB, listEnd, ih, Bool.and_assoc]

theorem listEnd_append (l : List CanvasElement) (e : CanvasElement)
    (y : Int) : listEnd y (l ++ [e]) = e.endY := by
  induction l generalizing y with
  | nil => simp [listEnd]
  | cons a as ih => simp [listEnd, ih]

/-- Layout well-formedness: the tracked elements chain contiguously from 0
and the cursor sits at the end of the last element. -/
def SpanInv (s : PrinterState) : Prop :=
  contiguousFromB 0 s.elements = true ∧ s.currentY = listEnd 0 s.elements

theorem spanInv_addText (s : PrinterState) (t : String)
    (o : Option TextStyle) (h : SpanInv s) : SpanInv (addText s t o) := by
  obtain ⟨h1, h2⟩ := h
  constructor <;>
    simp [addText, contiguousFromB_append, listEnd_append, h1, ← h2]

theorem spanInv_addTextAlign (s : PrinterState) (a : TextAlignment)
    (h : SpanInv s) : SpanInv (addTextAlign s a) := by
  obtain ⟨h1, h2⟩ := h
  constructor <;>
    simp [addTextAlign, contiguousFromB_append, listEnd_append, h1, ← h2]

theorem spanInv_addTextSize (s : PrinterState) (w hh : Int)
    (h : SpanInv s) : SpanInv (addTextSize s w hh) := by
  obtain ⟨h1, h2⟩ := h
  constructor <;>
    simp [addTextSize, contiguousFromB_append, listEnd_append, h1, ← h2]

theorem spanInv_addTextStyle (s : PrinterState) (st : TextStyle)
    (h : SpanInv s) : SpanInv (addTextStyle s st) := by
  obtain ⟨h1, h2⟩ := h
  constructor <;>
    simp [addTextStyle, contiguousFromB_append, listEnd_append, h1, ← h2]

theorem spanInv_addFeedLine (s : PrinterState) (n : Int)
    (h : SpanInv s) : SpanInv (addFeedLine s n) := by
  obtain ⟨h1, h2⟩ := h
  constructor <;>
    simp [addFeedLine, contiguousFromB_append, listEnd_append, h1, ← h2]

theorem spanInv_addLineSpace (s : PrinterState) (sp : Int)
    (h : SpanInv s) : SpanInv (addLineSpace s sp) := by
  obtain ⟨h1, h2⟩ := h
  constructor <;>
    simp [addLineSpace, contiguousFromB_append, listEnd_append, h1, ← h2]

theorem spanInv_addBarcode (s : PrinterState) (d : String) (ty : Int)
    (hOpt : Option Int) (h : SpanInv s) : SpanInv (addBarcode s d ty hOpt) := by
  obtain ⟨h1, h2⟩ := h
  constructor <;>
    simp [addBarcode, contiguousFromB_append, listEnd_append, h1, ← h2]

theorem spanInv_addQRCode (s : PrinterState) (d : String)
    (szOpt : Option Int) (h : SpanInv s) : SpanInv (addQRCode s d szOpt) := by
  obtain ⟨h1, h2⟩ := h
  constructor <;>
    simp [addQRCode, contiguousFromB_append, listEnd_append, h1, ← h2]

theorem spanInv_addImage (s : PrinterState) (w hh : Int)
    (ow oh : Option Int) (al : Option TextAlignment) (h : SpanInv s) :
    SpanInv (addImage s w hh ow oh al) := by
  obtain ⟨h1, h2⟩ := h
  constructor <;>
    simp [addImage, contiguousFromB_append, listEnd_append, h1, ← h2]

theorem spanInv_cutPaper (s : PrinterState) (h : SpanInv s) :
    SpanInv (cutPaper s) := by
  obtain ⟨h1, h2⟩ := h
  constructor <;>
    simp [cutPaper, contiguousFromB_append, listEnd_append, h1, ← h2]

theorem spanInv_replayStep (s : PrinterState) (el : CanvasElement)
    (h : SpanInv s) : SpanInv (replayStep s el) := by
  unfold replayStep
  cases el.data with
  | text t st al => exact spanInv_addText s t st h
  | barcode d ty hOpt => exact spanInv_addBarcode s d ty hOpt h
  | qrcode d szOpt => exact spanInv_addQRCode s d szOpt h
  | image w hh ow oh al => exact spanInv_addImage s w hh ow oh al h
  | feedline n => exact spanInv_addFeedLine s n h
  | cut => exact spanInv_cutPaper s h
  | textalign a => exact spanInv_addTextAlign s a h
  | textsize w hh => exact spanInv_addTextSize s w hh h
  | textstyle st => exact spanInv_addTextStyle s st h
  | linespace sp => exact spanInv_addLineSpace s sp h

theorem spanInv_foldl_replay (es : List CanvasElement) (s : PrinterState)
    (h : SpanInv s) : SpanInv (es.foldl replayStep s) := by
  induction es generalizing s with
  | nil => exact h
  | cons e es ih => exact ih _ (spanInv_replayStep s e h)

theorem spanInv_redrawCanvas (s : PrinterState) : SpanInv (redrawCanvas s) := by
  unfold redrawCanvas
  exact spanInv_foldl_replay _ _ ⟨rfl, rfl⟩

end CanvasPrinter

namespace CanvasPrinter

theorem redrawStep_startY (s : PrinterState) (e : CanvasElement) :
    (redrawStep s e).1.startY = s.currentY := by
  cases h : e.data <;> simp [redrawStep, h, placeEl]

theorem redrawStep_endY (s : PrinterState) (e : CanvasElement) :
    (redrawStep s e).1.endY = (redrawStep s e).2.currentY := by
  cases h : e.data <;> simp [redrawStep, h, placeEl]

theorem redrawStep_id (s : PrinterState) (e : CanvasElement) :
    (redrawStep s e).1.id = e.id := by
  cases h : e.data <;> simp [redrawStep, h, placeEl]

theorem redrawStep_data (s : PrinterState) (e : CanvasElement) :
    (redrawStep s e).1.data = e.data := by
  cases h : e.data <;> simp [redrawStep, h, placeEl]

theorem redrawAll_contig (es : List CanvasElement) : ∀ s : PrinterState,
    contiguousFromB s.currentY (redrawAll s es).1 = true ∧
    (redrawAll s es).2.currentY = listEnd s.currentY (redrawAll s es).1 := by
  induction es with
  | nil => intro s; exact ⟨rfl, rfl⟩
  | cons e es ih =>
    intro s
    obtain ⟨ih1, ih2⟩ := ih (redrawStep s e).2
    constructor
    · simp [redrawAll, contiguousFromB, redrawStep_startY,
        redrawStep_endY s e, ih1]
    · simp [redrawAll, listEnd, ← redrawStep_endY s e, ih2]

theorem redrawAll_idData (es : List CanvasElement) : ∀ s : PrinterState,
    ((redrawAll s es).1).map (fun e => (e.id, e.data)) =
      es.map (fun e => (e.id, e.data)) := by
  induction es with
  | nil => intro s; rfl
  | cons e es ih =>
    intro s
    simp [redrawAll, redrawStep_id, redrawStep_data, ih (redrawStep s e).2]

theorem spanInv_redrawCanvasFromElements (s : PrinterState) :
    SpanInv (redrawCanvasFromElements s) := by
  unfold redrawCanvasFromElements SpanInv
  have h := redrawAll_contig s.elements
    { s with
      currentY := 0
      currentTextAlign := .left
      currentTextStyle := {}
      currentTextSizeW := 1
      currentTextSizeH := 1
      lineSpacing := 30
      elements := []
      drawn := [] }
  exact ⟨h.1, h.2⟩

theorem spanInv_removeElement (s : PrinterState) (id : ElemId)
    (h : SpanInv s) : SpanInv (removeElement s id).2 := by
  unfold removeElement
  cases s.elements.findIdx? (fun el => el.id == id) with
  | none => exact h
  | some i => exact spanInv_redrawCanvas _

theorem spanInv_reorderElement (s : PrinterState) (id : ElemId) (idx : Int)
    (h : SpanInv s) : SpanInv (reorderElement s id idx).2 := by
  unfold reorderElement
  cases s.elements.findIdx? (fun el => el.id == id) with
  | none => exact h
  | some ci =>
    simp only
    split
    · exact h
    · cases s.elements[ci]? with
      | none => exact h
      | some el => exact spanInv_redrawCanvasFromElements _

theorem spanInv_loadReceiptData (s : PrinterState)
    (es : List CanvasElement) : SpanInv (loadReceiptData s es) :=
  spanInv_redrawCanvasFromElements _

theorem spanInv_clear (s : PrinterState) : SpanInv (clear s) := ⟨rfl, rfl⟩

theorem spanInv_applyOp (s : PrinterState) (op : Op) (h : SpanInv s) :
    SpanInv (applyOp s op) := by
  cases op with
  | opText t o => exact spanInv_addText s t o h
  | opBarcode d ty hh => exact spanInv_addBarcode s d ty hh h
  | opQRCode d sz => exact spanInv_addQRCode s d sz h
  | opImage w hh ow oh al => exact spanInv_addImage s w hh ow oh al h
  | opFeedLine n => exact spanInv_addFeedLine s n h
  | opCut => exact spanInv_cutPaper s h
  | opTextAlign a => exact spanInv_addTextAlign s a h
  | opTextSize w hh => exact spanInv_addTextSize s w hh h
  | opTextStyle st => exact spanInv_addTextStyle s st h
  | opLineSpace sp => exact spanInv_addLineSpace s sp h
  | opRemove id => exact spanInv_removeElement s id h
  | opReorder id idx => exact spanInv_reorderElement s id idx h
  | opLoad es => exact spanInv_loadReceiptData s es
  | opClear => exact spanInv_clear s

theorem spanInv_runOps (pw ch : Int) (m : Font → String → Int)
    (ops : List Op) : SpanInv (runOps pw ch m ops) := by
  unfold runOps
  have : SpanInv (initState pw ch m) := ⟨rfl, rfl⟩
  generalize initState pw ch m = s at this ⊢
  induction ops generalizing s with
  | nil => exact this
  | cons op ops ih => exact ih _ (spanInv_applyOp s op this)

theorem contig_head (l : List CanvasElement) (y : Int)
    (h : contiguousFromB y l = true) (h0 : 0 < l.length) :
    (l.get ⟨0, h0⟩).startY = y := by
  cases l with
  | nil => simp at h0
  | cons e es =>
    simp [contiguousFromB] at h
    exact h.1

theorem contig_consecutive (l : List CanvasElement) : ∀ y : Int,
    contiguousFromB y l = true → ∀ i (h : i + 1 < l.length),
    (l.get ⟨i, Nat.lt_of_succ_lt h⟩).endY = (l.get ⟨i + 1, h⟩).startY := by
  induction l with
  | nil => intro y _ i h; simp at h
  | cons e es ih =>
    intro y hc i h
    simp [contiguousFromB] at hc
    cases i with
    | zero =>
      have h0 : 0 < es.length := by simpa using h
      simpa using (contig_head es e.endY hc.2 h0).symm
    | succ j =>
      have hj : j + 1 < es.length := by simpa using h
      simpa using ih e.endY hc.2 j hj

end CanvasPrinter

namespace CanvasPrinter

/-- The numeric id suffixes of the tracked elements, in order. -/
def idNums (l : List CanvasElement) : List Nat :=
  l.map (fun e => e.id.num)

/-- Allocator well-formedness: every live element carries a numeric id suffix
bounded by the counter, and the suffixes are pairwise distinct. -/
def IdInv (s : PrinterState) : Prop :=
  (∀ n ∈ idNums s.elements, n ≤ s.elementIdCounter) ∧
    (idNums s.elements).Nodup

theorem idInv_ext (s s' : PrinterState)
    (hm : idNums s'.elements = idNums s.elements ++ [s.elementIdCounter + 1])
    (hc : s'.elementIdCounter = s.elementIdCounter + 1)
    (h : IdInv s) : IdInv s' := by
  obtain ⟨h1, h2⟩ := h
  constructor
  · intro n hn
    rw [hm] at hn
    rw [hc]
    rcases List.mem_append.1 hn with hn | hn
    · exact Nat.le_succ_of_le (h1 n hn)
    · simp at hn; omega
  · rw [hm]
    have hnotin : s.elementIdCounter + 1 ∉ idNums s.elements := by
      intro hmem
      have := h1 _ hmem
      omega
    simp [List.nodup_append, h2, hnotin]

theorem idInv_addText (s : PrinterState) (t : String) (o : Option TextStyle)
    (h : IdInv s) : IdInv (addText s t o) :=
  idInv_ext s _ (by simp [addText, idNums]) (by simp [addText]) h

theorem idInv_addTextAlign (s : PrinterState) (a : TextAlignment)
    (h : IdInv s) : IdInv (addTextAlign s a) :=
  idInv_ext s _ (by simp [addTextAlign, idNums]) (by simp [addTextAlign]) h

theorem idInv_addTextSize (s : PrinterState) (w hh : Int)
    (h : IdInv s) : IdInv (addTextSize s w hh) :=
  idInv_ext s _ (by simp [addTextSize, idNums]) (by simp [addTextSize]) h

theorem idInv_addTextStyle (s : PrinterState) (st : TextStyle)
    (h : IdInv s) : IdInv (addTextStyle s st) :=
  idInv_ext s _ (by simp [addTextStyle, idNums]) (by simp [addTextStyle]) h

theorem idInv_addFeedLine (s : PrinterState) (n : Int)
    (h : IdInv s) : IdInv (addFeedLine s n) :=
  idInv_ext s _ (by simp [addFeedLine, idNums]) (by simp [addFeedLine]) h

theorem idInv_addLineSpace (s : PrinterState) (sp : Int)
    (h : IdInv s) : IdInv (addLineSpace s sp) :=
  idInv_ext s _ (by simp [addLineSpace, idNums]) (by simp [addLineSpace]) h

theorem idInv_addBarcode (s : PrinterState) (d : String) (ty : Int)
    (hOpt : Option Int) (h : IdInv s) : IdInv (addBarcode s d ty hOpt) :=
  idInv_ext s _ (by simp [addBarcode, idNums]) (by simp [addBarcode]) h

theorem idInv_addQRCode (s : PrinterState) (d : String) (szOpt : Option Int)
    (h : IdInv s) : IdInv (addQRCode s d szOpt) :=
  idInv_ext s _ (by simp [addQRCode, idNums]) (by simp [addQRCode]) h

theorem idInv_addImage (s : PrinterState) (w hh : Int) (ow oh : Option Int)
    (al : Option TextAlignment) (h : IdInv s) :
    IdInv (addImage s w hh ow oh al) :=
  idInv_ext s _ (by simp [addImage, idNums]) (by simp [addImage]) h

theorem idInv_cutPaper (s : PrinterState) (h : IdInv s) :
    IdInv (cutPaper s) :=
  idInv_ext s _ (by simp [cutPaper, idNums]) (by simp [cutPaper]) h

theorem idInv_replayStep (s : PrinterState) (el : CanvasElement)
    (h : IdInv s) : IdInv (replayStep s el) := by
  unfold replayStep
  cases el.data with
  | text t st al => exact idInv_addText s t st h
  | barcode d ty hOpt => exact idInv_addBarcode s d ty hOpt h
  | qrcode d szOpt => exact idInv_addQRCode s d szOpt h
  | image w hh ow oh al => exact idInv_addImage s w hh ow oh al h
  | feedline n => exact idInv_addFeedLine s n h
  | cut => exact idInv_cutPaper s h
  | textalign a => exact idInv_addTextAlign s a h
  | textsize w hh => exact idInv_addTextSize s w hh h
  | textstyle st => exact idInv_addTextStyle s st h
  | linespace sp => exact idInv_addLineSpace s sp h

theorem idInv_foldl_replay (es : List CanvasElement) (s : PrinterState)
    (h : IdInv s) : IdInv (es.foldl replayStep s) := by
  induction es generalizing s with
  | nil => exact h
  | cons e es ih => exact ih _ (idInv_replayStep s e h)

theorem idInv_redrawCanvas (s : PrinterState) : IdInv (redrawCanvas s) := by
  unfold redrawCanvas
  exact idInv_foldl_replay _ _ ⟨by simp [idNums], by simp [idNums]⟩

theorem idInv_removeElement (s : PrinterState) (id : ElemId)
    (h : IdInv s) : IdInv (removeElement s id).2 := by
  unfold removeElement
  cases s.elements.findIdx? (fun el => el.id == id) with
  | none => exact h
  | some i => exact idInv_redrawCanvas _

theorem redrawStep_counter (s : PrinterState) (e : CanvasElement) :
    (redrawStep s e).2.elementIdCounter = s.elementIdCounter := by
  cases h : e.data <;> simp [redrawStep, h]

theorem redrawAll_idNums (es : List CanvasElement) : ∀ s : PrinterState,
    idNums (redrawAll s es).1 = idNums es := by
  induction es with
  | nil => intro s; rfl
  | cons e es ih =>
    intro s
    simp [redrawAll, idNums] at ih ⊢
    exact ⟨congrArg ElemId.num (redrawStep_id s e), ih _⟩

theorem redrawAll_counter (es : List CanvasElement) : ∀ s : PrinterState,
    (redrawAll s es).2.elementIdCounter = s.elementIdCounter := by
  induction es with
  | nil => intro s; rfl
  | cons e es ih =>
    intro s
    simp [redrawAll, ih, redrawStep_counter]

theorem perm_insertIdxCons {α : Type} (n : Nat) (a : α) : ∀ l : List α,
    n ≤ l.length → (l.insertIdx n a).Perm (a :: l) := by
  induction n with
  | zero => intro l _; simp
  | succ m ih =>
    intro l h
    cases l with
    | nil => simp at h
    | cons x xs =>
      have hx := ih xs (by simpa using h)
      rw [List.insertIdx_succ_cons]
      exact (hx.cons x).trans (List.Perm.swap a x xs)

theorem perm_cons_eraseIdxAt {α : Type} : ∀ (l : List α) (i : Nat)
    (h : i < l.length), l.Perm (l.get ⟨i, h⟩ :: l.eraseIdx i) := by
  intro l
  induction l with
  | nil => intro i h; simp at h
  | cons x xs ih =>
    intro i h
    cases i with
    | zero => simp [List.eraseIdx]
    | succ j =>
      have hj : j < xs.length := by simpa using h
      show (x :: xs).Perm (xs.get ⟨j, hj⟩ :: x :: xs.eraseIdx j)
      exact ((ih j hj).cons x).trans (List.Perm.swap _ x _)

end CanvasPrinter

namespace CanvasPrinter

theorem redrawCanvasFromElements_idNums (s : PrinterState) :
    idNums (redrawCanvasFromElements s).elements = idNums s.elements := by
  unfold redrawCanvasFromElements
  exact redrawAll_idNums _ _

theorem redrawCanvasFromElements_counter (s : PrinterState) :
    (redrawCanvasFromElements s).elementIdCounter = s.elementIdCounter := by
  unfold redrawCanvasFromElements
  simp [redrawAll_counter]

theorem perm_moved (l : List CanvasElement) (ci : Nat) (el : CanvasElement)
    (hci : ci < l.length) (hel : l[ci] = el) (n : Nat)
    (hn : n ≤ (l.eraseIdx ci).length) :
    ((l.eraseIdx ci).insertIdx n el).Perm l := by
  have p1 := perm_insertIdxCons n el (l.eraseIdx ci) hn
  have p2 := perm_cons_eraseIdxAt l ci hci
  rw [List.get_eq_getElem, hel] at p2
  exact p1.trans p2.symm

theorem idInv_reorderElement (s : PrinterState) (id : ElemId) (idx : Int)
    (h : IdInv s) : IdInv (reorderElement s id idx).2 := by
  unfold reorderElement
  cases s.elements.findIdx? (fun el => el.id == id) with
  | none => exact h
  | some ci =>
    simp only
    split
    · exact h
    · rename_i hrange
      cases hq : s.elements[ci]? with
      | none => exact h
      | some el =>
        obtain ⟨hci, hel⟩ := List.getElem?_eq_some.1 hq
        have hidx : idx.toNat ≤ (s.elements.eraseIdx ci).length := by
          rw [List.length_eraseIdx_of_lt hci]
          push_neg at hrange
          omega
        have pm := perm_moved s.elements ci el hci hel idx.toNat hidx
        have pmn := pm.map (fun e => e.id.num)
        constructor
        · intro n hn
          rw [redrawCanvasFromElements_idNums] at hn
          rw [redrawCanvasFromElements_counter]
          exact h.1 n (pmn.mem_iff.1 hn)
        · rw [redrawCanvasFromElements_idNums]
          exact pmn.nodup_iff.2 h.2

theorem idInv_clear (s : PrinterState) : IdInv (clear s) :=
  ⟨by simp [clear, idNums], by simp [clear, idNums]⟩

theorem idInv_applyOp (s : PrinterState) (op : Op) (hop : ¬ op.isLoad)
    (h : IdInv s) : IdInv (applyOp s op) := by
  cases op with
  | opText t o => exact idInv_addText s t o h
  | opBarcode d ty hh => exact idInv_addBarcode s d ty hh h
  | opQRCode d sz => exact idInv_addQRCode s d sz h
  | opImage w hh ow oh al => exact idInv_addImage s w hh ow oh al h
  | opFeedLine n => exact idInv_addFeedLine s n h
  | opCut => exact idInv_cutPaper s h
  | opTextAlign a => exact idInv_addTextAlign s a h
  | opTextSize w hh => exact idInv_addTextSize s w hh h
  | opTextStyle st => exact idInv_addTextStyle s st h
  | opLineSpace sp => exact idInv_addLineSpace s sp h
  | opRemove id => exact idInv_removeElement s id h
  | opReorder id idx => exact idInv_reorderElement s id idx h
  | opLoad es => exact absurd trivial hop
  | opClear => exact idInv_clear s

theorem idInv_runOps (pw ch : Int) (m : Font → String → Int)
    (ops : List Op) (hops : ∀ op ∈ ops, ¬ op.isLoad) :
    IdInv (runOps pw ch m ops) := by
  unfold runOps
  have hinit : IdInv (initState pw ch m) :=
    ⟨by simp [initState, idNums], by simp [initState, idNums]⟩
  generalize initState pw ch m = s at hinit ⊢
  induction ops generalizing s with
  | nil => exact hinit
  | cons op ops ih =>
    exact ih (fun o ho => hops o (List.mem_cons_of_mem op ho)) _
      (idInv_applyOp s op (hops op (List.mem_cons_self op ops)) hinit)

end CanvasPrinter

namespace CanvasPrinter

theorem joinWords_cons (x : String) (l : List String) (h : l ≠ []) :
    joinWords (x :: l) = x ++ " " ++ joinWords l := by
  cases l with
  | nil => exact absurd rfl h
  | cons y ys => rfl

theorem joinWords_glue (a b : String) : ∀ (xs : List String)
    (ys : List String),
    joinWords (xs ++ (a ++ " " ++ b) :: ys) = joinWords (xs ++ a :: b :: ys) := by
  intro xs
  induction xs with
  | nil =>
    intro ys
    cases ys with
    | nil => rfl
    | cons z zs => simp [joinWords, String.append_assoc]
  | cons x xs ih =>
    intro ys
    have h1 : xs ++ (a ++ " " ++ b) :: ys ≠ [] := by simp
    have h2 : xs ++ a :: b :: ys ≠ [] := by simp
    rw [List.cons_append, List.cons_append, joinWords_cons x _ h1,
      joinWords_cons x _ h2, ih]

theorem joinWords_wrapLoop (m : String → Int) (limit : Int) :
    ∀ (ws : List String) (cur : String) (acc : List String),
    joinWords (wrapLoop m limit cur ws acc) = joinWords (acc ++ cur :: ws) := by
  intro ws
  induction ws with
  | nil => intro cur acc; rfl
  | cons w rest ih =>
    intro cur acc
    unfold wrapLoop
    split
    · rw [ih]
      exact joinWords_glue cur w acc rest
    · rw [ih]
      simp

theorem splitAux_ne_nil : ∀ (cs : List Char) (cur : String),
    splitAux cs cur ≠ [] := by
  intro cs
  induction cs with
  | nil => intro cur; simp [splitAux]
  | cons c rest ih =>
    intro cur
    unfold splitAux
    split
    · simp
    · exact ih _

theorem joinWords_splitAux : ∀ (cs : List Char) (cur : String),
    joinWords (splitAux cs cur) = cur ++ String.mk cs := by
  intro cs
  induction cs with
  | nil =>
    intro cur
    show joinWords [cur] = cur ++ String.mk []
    exact (String.append_empty cur).symm
  | cons c rest ih =>
    intro cur
    unfold splitAux
    split
    · rename_i hc
      rw [joinWords_cons cur _ (splitAux_ne_nil rest ""), ih "",
        String.empty_append, hc, String.append_assoc]
      rfl
    · rw [ih]
      have hp : cur.push c = cur ++ String.mk [c] := rfl
      rw [hp, String.append_assoc]
      rfl

theorem joinWords_splitOnSpace (text : String) :
    joinWords (splitOnSpace text) = text := by
  unfold splitOnSpace
  rw [joinWords_splitAux, String.empty_append]
  rfl

end CanvasPrinter

namespace CanvasPrinter

/-- Erase the stored style and alignment snapshot of a text element, keeping
everything else (used to state that the position-only replay never consults
that snapshot). -/
def scrubText (e : CanvasElement) : CanvasElement :=
  match e.data with
  | .text t _ _ => { e with data := .text t none none }
  | _ => e

theorem scrubText_id (e : CanvasElement) : (scrubText e).id = e.id := by
  cases h : e.data <;> simp [scrubText, h]

theorem scrubText_spans (e : CanvasElement) :
    (scrubText e).startY = e.startY ∧ (scrubText e).endY = e.endY := by
  cases h : e.data <;> simp [scrubText, h]

theorem redrawStep_scrub (s : PrinterState) (e : CanvasElement) :
    (redrawStep s (scrubText e)).2 = (redrawStep s e).2 ∧
    (redrawStep s (scrubText e)).1 = scrubText (redrawStep s e).1 := by
  cases h : e.data <;> simp [scrubText, redrawStep, h, placeEl]

theorem redrawAll_scrub (es : List CanvasElement) : ∀ s : PrinterState,
    (redrawAll s (es.map scrubText)).2 = (redrawAll s es).2 ∧
    (redrawAll s (es.map scrubText)).1 = (redrawAll s es).1.map scrubText := by
  induction es with
  | nil => intro s; exact ⟨rfl, rfl⟩
  | cons e es ih =>
    intro s
    obtain ⟨hs, he⟩ := redrawStep_scrub s e
    obtain ⟨ih1, ih2⟩ := ih (redrawStep s e).2
    constructor
    · simp only [List.map_cons, redrawAll, hs, ih1]
    · simp only [List.map_cons, redrawAll, hs, he, ih2]

theorem foldrMax_scrub (es : List CanvasElement) :
    (es.map scrubText).foldr (fun e acc => max e.id.num acc) 0 =
      es.foldr (fun e acc => max e.id.num acc) 0 := by
  induction es with
  | nil => rfl
  | cons e es ih => simp [scrubText_id, ih]

theorem redrawCanvasFromElements_idData (t : PrinterState) :
    (redrawCanvasFromElements t).elements.map (fun e => (e.id, e.data)) =
      t.elements.map (fun e => (e.id, e.data)) := by
  unfold redrawCanvasFromElements
  exact redrawAll_idData _ _

end CanvasPrinter

namespace CanvasPrinter

/-- A deterministic measurement function under which every string measures 0
(all words fit on one line); used by the concrete scenarios. -/
def measureZero : Font → String → Int := fun _ _ => 0

/-- A printer constructed on a 576px-wide, 1000px-tall canvas. -/
def printer0 : PrinterState := initState 576 1000 measureZero

/-- Two plain text elements appended: ids `text_1` (content A) and `text_2`
(content B). -/
def fixtureAB : PrinterState := addText (addText printer0 "A" none) "B" none

/-- Three plain text elements appended: ids `text_1`, `text_2`, `text_3`. -/
def fixtureABC : PrinterState := addText fixtureAB "C" none

/-- The third element of `fixtureABC` (id `text_3`, spanning 92..138). -/
def fixtureC : CanvasElement :=
  { id := ⟨"text", 3⟩, x := 10, y := 92, width := 556, height := 46,
    data := .text "C" (some {}) (some .left), startY := 92, endY := 138 }

/-- A `SetTextStyle (bold := true)` annotation followed by the text A. -/
def fixtureBoldText : PrinterState :=
  addText (addTextStyle printer0 { bold := some true }) "A" none

/-- A single `FeedLines 2` element. -/
def fixtureFeed : PrinterState := addFeedLine printer0 2

/-- A bulk-load element whose stored snapshot says bold and centered. -/
def loadedTextEl : CanvasElement :=
  { id := ⟨"text", 1⟩, x := 10, y := 0, width := 556, height := 46,
    data := .text "A" (some { bold := some true }) (some .center),
    startY := 0, endY := 46 }

/-- An operation sequence exercising append, formatting and removal. -/
def demoOps : List Op :=
  [.opTextStyle { bold := some true }, .opText "A" none, .opFeedLine 1,
   .opRemove ⟨"textstyle", 1⟩]

/-- An operation sequence with appends and a removal (no bulk load). -/
def opsNoLoad : List Op :=
  [.opText "A" none, .opRemove ⟨"text", 1⟩, .opText "B" none]

/-- C1: evaluation of the code at the spec's formatting carry-over scenario.
Appending `SetTextStyle (bold := true)` then `Text "A"` and removing the
style element's id does trigger the full command replay, but the replay
re-appends the text element with its stored MERGED style as the override
(`redrawCanvas` passes `element.data.style` to `addText`), so the surviving
text element's resolved stored style still has bold := true and the text is
drawn with a bold font.  The claim (and the spec) say bold must be gone. -/
theorem bold_persists_after_style_removal :
    (removeElement fixtureBoldText ⟨"textstyle", 1⟩).1 = true ∧
    (removeElement fixtureBoldText ⟨"textstyle", 1⟩).2.elements.map
        (fun e => e.data) =
      [.text "A" (some { bold := some true }) (some .left)] ∧
    (removeElement fixtureBoldText ⟨"textstyle", 1⟩).2.drawn =
      [.textLine "A" 10 0 ⟨true, 16, "monospace"⟩ .left] := by
  decide

/-- C2 counterexample: the claim says a successful reorder performs the same
full command replay as remove, after which all elements carry NEWLY assigned
ids (old ids invalidated).  In the code `reorderElement` runs the
position-only replay instead: after moving `text_3` to index 0 all three old
ids survive unchanged (the moved element still has id `text_3`) and the id
counter is not reset. -/
theorem reorder_keeps_old_ids :
    (reorderElement fixtureABC ⟨"text", 3⟩ 0).1 = true ∧
    (reorderElement fixtureABC ⟨"text", 3⟩ 0).2.elements.map (fun e => e.id) =
      [⟨"text", 3⟩, ⟨"text", 1⟩, ⟨"text", 2⟩] ∧
    (reorderElement fixtureABC ⟨"text", 3⟩ 0).2.elementIdCounter = 3 := by
  decide

/-- C2 (amended): `reorder(elementId, newIndex)` returns false when the id is
not found or `newIndex` is outside `0 ≤ newIndex < length` (with no
mutation); otherwise it moves the element by a remove-then-insert splice and
runs the position-only replay `redrawCanvasFromElements`, which preserves
every element's id and stored payload (ids are NOT reassigned) and recomputes
the spans contiguously starting at 0. -/
theorem reorder_moves_in_place (s : PrinterState) (id : ElemId) (idx : Int) :
    (s.elements.findIdx? (fun el => el.id == id) = none →
      reorderElement s id idx = (false, s)) ∧
    ((idx < 0 ∨ (s.elements.length : Int) ≤ idx) →
      reorderElement s id idx = (false, s)) ∧
    (∀ ci el, s.elements.findIdx? (fun el => el.id == id) = some ci →
      s.elements[ci]? = some el →
      0 ≤ idx → idx < (s.elements.length : Int) →
      (reorderElement s id idx).1 = true ∧
      (reorderElement s id idx).2.elements.map (fun e => (e.id, e.data)) =
        ((s.elements.eraseIdx ci).insertIdx idx.toNat el).map
          (fun e => (e.id, e.data)) ∧
      contiguousFromB 0 (reorderElement s id idx).2.elements = true) := by
  refine ⟨?_, ?_, ?_⟩
  · intro h
    unfold reorderElement
    rw [h]
  · intro h
    unfold reorderElement
    cases s.elements.findIdx? (fun el => el.id == id) with
    | none => rfl
    | some ci => simp only [if_pos h]
  · intro ci el h1 h2 h3 h4
    unfold reorderElement
    rw [h1]
    simp only [if_neg (by omega : ¬(idx < 0 ∨ (s.elements.length : Int) ≤ idx))]
    rw [h2]
    refine ⟨rfl, ?_, ?_⟩
    · exact redrawCanvasFromElements_idData _
    · exact (spanInv_redrawCanvasFromElements _).1

/-- Witness for the amended reorder contract at a concrete document: moving
`text_3` of a three-text document to index 0 succeeds, keeps ids and data,
and produces contiguous spans. -/
theorem reorder_moves_in_place_witness :
    (reorderElement fixtureABC ⟨"text", 3⟩ 0).1 = true ∧
    (reorderElement fixtureABC ⟨"text", 3⟩ 0).2.elements.map
        (fun e => (e.id, e.data)) =
      ((fixtureABC.elements.eraseIdx 2).insertIdx ((0 : Int)).toNat
          fixtureC).map (fun e => (e.id, e.data)) ∧
    contiguousFromB 0 (reorderElement fixtureABC ⟨"text", 3⟩ 0).2.elements =
      true :=
  (reorder_moves_in_place fixtureABC ⟨"text", 3⟩ 0).2.2 2 fixtureC
    (by decide) (by decide) (by decide) (by decide)

/-- C3 counterexample: the claim says an id is never assigned to a different
element for the lifetime of the document, even across removals.  In the code
`redrawCanvas` resets `elementIdCounter` to 0 and reallocates: before the
removal id `text_1` names the element with content A; after removing
`text_1`, the surviving element with content B is reassigned the id
`text_1`. -/
theorem id_reused_after_remove :
    fixtureAB.elements.map (fun e => (e.id, e.data)) =
      [(⟨"text", 1⟩, .text "A" (some {}) (some .left)),
       (⟨"text", 2⟩, .text "B" (some {}) (some .left))] ∧
    (removeElement fixtureAB ⟨"text", 1⟩).2.elements.map
        (fun e => (e.id, e.data)) =
      [(⟨"text", 1⟩, .text "B" (some {}) (some .left))] := by
  decide

/-- C3 (amended): across any sequence of append, remove and reorder
operations (no bulk load), the live elements' ids are pairwise distinct in
every reachable state, and every live numeric suffix is bounded by the
allocator counter; ids are however reallocated from 0 by the replay a removal
triggers, so an id can denote different elements at different times. -/
theorem ids_unique_in_reachable_state (pw ch : Int)
    (m : Font → String → Int) (ops : List Op)
    (hops : ∀ op ∈ ops, ¬ op.isLoad) :
    ((runOps pw ch m ops).elements.map (fun e => e.id)).Nodup ∧
    (∀ e ∈ (runOps pw ch m ops).elements,
      e.id.num ≤ (runOps pw ch m ops).elementIdCounter) := by
  obtain ⟨h1, h2⟩ := idInv_runOps pw ch m ops hops
  constructor
  · have : ((runOps pw ch m ops).elements.map (fun e => e.id)).map
        (fun i => i.num) = idNums (runOps pw ch m ops).elements := by
      simp [idNums]
    exact List.Nodup.of_map _ (this ▸ h2)
  · intro e he
    exact h1 e.id.num (List.mem_map_of_mem _ he)

/-- Witness: a concrete append/remove/append sequence yields pairwise
distinct ids with bounded suffixes. -/
theorem ids_unique_witness :
    ((runOps 576 1000 measureZero opsNoLoad).elements.map
        (fun e => e.id)).Nodup ∧
    (∀ e ∈ (runOps 576 1000 measureZero opsNoLoad).elements,
      e.id.num ≤ (runOps 576 1000 measureZero opsNoLoad).elementIdCounter) :=
  ids_unique_in_reachable_state 576 1000 measureZero opsNoLoad (by decide)

/-- C4: after every sequence of public operations (appends of every command
kind, remove, reorder, bulk load, clear), consecutive elements satisfy
`endY = startY` of the successor, and a non-empty document starts at 0. -/
theorem span_contiguity_after_ops (pw ch : Int) (m : Font → String → Int)
    (ops : List Op) :
    (∀ i (h : i + 1 < (runOps pw ch m ops).elements.length),
      ((runOps pw ch m ops).elements.get ⟨i, Nat.lt_of_succ_lt h⟩).endY =
        ((runOps pw ch m ops).elements.get ⟨i + 1, h⟩).startY) ∧
    (∀ h0 : 0 < (runOps pw ch m ops).elements.length,
      ((runOps pw ch m ops).elements.get ⟨0, h0⟩).startY = 0) := by
  have hs := spanInv_runOps pw ch m ops
  exact ⟨fun i h => contig_consecutive _ 0 hs.1 i h,
    fun h0 => contig_head _ 0 hs.1 h0⟩

/-- Witness: contiguity at a concrete sequence containing formatting, text,
feed and a removal. -/
theorem span_contiguity_witness :
    ((runOps 576 1000 measureZero demoOps).elements.get
        ⟨0, by decide⟩).endY =
      ((runOps 576 1000 measureZero demoOps).elements.get
        ⟨1, by decide⟩).startY ∧
    ((runOps 576 1000 measureZero demoOps).elements.get
        ⟨0, by decide⟩).startY = 0 :=
  ⟨(span_contiguity_after_ops 576 1000 measureZero demoOps).1 0 (by decide),
   (span_contiguity_after_ops 576 1000 measureZero demoOps).2 (by decide)⟩

/-- C5: evaluation of the code at a no-op reorder.  The claim (and the spec's
replay-idempotence property) say `reorder(id, sameIndex)` leaves ids, order
and spans unchanged.  The code's position-only replay recomputes a feed
element's height as `lines * lineSpacing` (60 for two lines) although
`addFeedLine` produced `lines * (fontHeight + lineSpacing)` (92), so the
span of the single element changes from 0..92 to 0..60 under a same-index
reorder while ids and order are untouched. -/
theorem noop_reorder_changes_feed_span :
    (reorderElement fixtureFeed ⟨"feedline", 1⟩ 0).1 = true ∧
    fixtureFeed.elements.map (fun e => (e.id, e.startY, e.endY)) =
      [(⟨"feedline", 1⟩, 0, 92)] ∧
    (reorderElement fixtureFeed ⟨"feedline", 1⟩ 0).2.elements.map
        (fun e => (e.id, e.startY, e.endY)) =
      [(⟨"feedline", 1⟩, 0, 60)] := by
  decide

/-- C6: the greedy word wrap never drops content: joining the produced lines
with single spaces reproduces the input text exactly, for every measurement
function and width limit; and a text that is a single word (no spaces) always
forms exactly its own line, however wide. -/
theorem wordwrap_never_drops_content (m : String → Int) (limit : Int)
    (text : String) :
    joinWords (wrapText m limit text) = text ∧
    (splitOnSpace text = [text] → wrapText m limit text = [text]) := by
  constructor
  · unfold wrapText
    cases hs : splitOnSpace text with
    | nil => exact absurd hs (splitAux_ne_nil _ _)
    | cons w ws =>
      rw [joinWords_wrapLoop]
      have h := joinWords_splitOnSpace text
      rw [hs] at h
      simpa using h
  · intro h
    unfold wrapText
    rw [h]
    rfl

/-- Witness: a lone oversized word (limit smaller than any measure) still
forms its own line and the content round-trips. -/
theorem wordwrap_witness :
    joinWords (wrapText (fun _ => 0) (-5) "word") = "word" ∧
    wrapText (fun _ => 0) (-5) "word" = ["word"] :=
  ⟨(wordwrap_never_drops_content (fun _ => 0) (-5) "word").1,
   (wordwrap_never_drops_content (fun _ => 0) (-5) "word").2 (by decide)⟩

/-- C7 counterexample: the claim says the position-only replay redraws every
text element with its own stored style and alignment snapshot.  Loading a
single text element whose snapshot says bold and centered, the code draws it
with the running (default) context instead: plain font, left aligned. -/
theorem stored_snapshot_ignored_on_load :
    (loadReceiptData printer0 [loadedTextEl]).drawn =
      [.textLine "A" 10 0 ⟨false, 16, "monospace"⟩ .left] ∧
    loadedTextEl.data =
      .text "A" (some { bold := some true }) (some .center) ∧
    TextAlignment.left ≠ TextAlignment.center ∧
    (false : Bool) ≠ true := by
  decide

/-- C7 (amended): the position-only replay derives each text element's drawn
style and alignment from the running formatting context rebuilt while
walking, and never consults the stored per-element snapshot: erasing every
text element's stored style/alignment snapshot changes neither the draw trace
nor the recomputed spans of a bulk load. -/
theorem position_replay_uses_context_only (s : PrinterState)
    (es : List CanvasElement) :
    (loadReceiptData s (es.map scrubText)).drawn =
      (loadReceiptData s es).drawn ∧
    (loadReceiptData s (es.map scrubText)).elements.map
        (fun e => (e.startY, e.endY)) =
      (loadReceiptData s es).elements.map (fun e => (e.startY, e.endY)) := by
  simp only [loadReceiptData, redrawCanvasFromElements, foldrMax_scrub]
  obtain ⟨h2, h1⟩ := redrawAll_scrub es
    { s with
      elements := []
      elementIdCounter := es.foldr (fun e acc => max e.id.num acc) 0
      currentY := 0
      currentTextAlign := .left
      currentTextStyle := {}
      currentTextSizeW := 1
      currentTextSizeH := 1
      lineSpacing := 30
      drawn := [] }
  constructor
  · rw [h2]
  · rw [h1, List.map_map]
    apply List.map_congr_left
    intro a _
    simp [scrubText_spans a, Function.comp]

/-- C8: evaluation of the feed-advance contract.  On append the cursor does
advance by `count * (baseFontSize * verticalScale + lineSpacing)` (92 for two
lines at defaults) with nothing drawn, but on the position-only replay the
code advances by `count * lineSpacing` only (60), contradicting the claim's
"on every replay". -/
theorem feedline_advance_mismatch_on_replay :
    (addFeedLine printer0 2).currentY = 2 * (16 * 1 + 30) ∧
    (addFeedLine printer0 2).drawn = [] ∧
    (redrawCanvasFromElements (addFeedLine printer0 2)).currentY = 2 * 30 ∧
    (redrawCanvasFromElements (addFeedLine printer0 2)).drawn = [] := by
  decide

/-- C9: id-addressed operations are total no-ops on unknown ids: when no live
element carries the id, `removeElement` returns false with the state (element
list, spans, cursor, formatting context, canvas) completely unchanged, and so
does `reorderElement` for every index. -/
theorem unknown_id_total_noop (s : PrinterState) (id : ElemId)
    (h : ∀ e ∈ s.elements, e.id ≠ id) :
    removeElement s id = (false, s) ∧
    ∀ idx : Int, reorderElement s id idx = (false, s) := by
  have hf : s.elements.findIdx? (fun el => el.id == id) = none := by
    rw [List.findIdx?_eq_none_iff]
    intro x hx
    simpa using h x hx
  constructor
  · unfold removeElement
    rw [hf]
  · intro idx
    unfold reorderElement
    rw [hf]

/-- Witness: removing or reordering an absent id on a two-element document
returns false and leaves the state untouched. -/
theorem unknown_id_total_noop_witness :
    removeElement fixtureAB ⟨"qrcode", 9⟩ = (false, fixtureAB) ∧
    reorderElement fixtureAB ⟨"qrcode", 9⟩ 1 = (false, fixtureAB) :=
  ⟨(unknown_id_total_noop fixtureAB ⟨"qrcode", 9⟩ (by decide)).1,
   (unknown_id_total_noop fixtureAB ⟨"qrcode", 9⟩ (by decide)).2 1⟩

/-- C10: appending a text command with empty content still appends exactly
one element, the wrap of the empty string being the single empty line, so the
element consumes one full line of vertical space:
`baseFontSize * verticalScale + lineSpacing`. -/
theorem empty_text_one_line (s : PrinterState) :
    (addText s "" none).elements.length = s.elements.length + 1 ∧
    ((addText s "" none).elements.getLast?).map (fun e => e.height) =
      some (16 * s.currentTextSizeH + s.lineSpacing) ∧
    (∀ (m : String → Int) (limit : Int), wrapText m limit "" = [""]) := by
  refine ⟨?_, ?_, fun m limit => rfl⟩
  · simp [addText]
  · have hw : ∀ (m : String → Int) (limit : Int), wrapText m limit "" = [""] :=
      fun m limit => rfl
    simp [addText, hw, List.getLast?_concat]

end CanvasPrinter
